import Mathlib

/-!
Shallow embedding of the two agent scripts of this repository
(`code-review/reviewer.py` and `docqa/qa.py`) together with proofs of the
behavioural claims about them.

Conventions used throughout:
* Python strings are modelled as Lean `String` (equivalently `List Char`).
* Python `bytes` values are modelled as `List Nat`.
* External effects (the file system, HTTP fetches, text codecs, the PDF
  library, and the language-model client) are modelled as an explicit
  environment of oracle functions; a Python call that may raise is modelled
  with `Option`/`Except`, where `none` / `.error` stands for a raised
  exception.
* A language-model response is modelled by the content string that the
  scripts extract from it (`resp['choices'][0]['message']['content']`, with
  its string fallbacks); a model call that raises is `.error msg` where
  `msg` is the exception's string rendering.
-/

namespace VAgents

/-- The whitespace predicate of Python's `str.split()` (the Unicode
code points CPython treats as whitespace). -/
def isPySpace (c : Char) : Bool :=
  let n := c.toNat
  decide ((9 ≤ n ∧ n ≤ 13) ∨ (28 ≤ n ∧ n ≤ 32) ∨ n = 133 ∨ n = 160 ∨
    n = 0x1680 ∨ (0x2000 ≤ n ∧ n ≤ 0x200a) ∨ n = 0x2028 ∨ n = 0x2029 ∨
    n = 0x202f ∨ n = 0x205f ∨ n = 0x3000)

/-- Python `text.split()` with no separator: split on runs of whitespace,
dropping empty words; stated on the character-list view of the string. -/
def pySplit (l : List Char) : List (List Char) :=
  match l with
  | [] => []
  | c :: s =>
    if isPySpace c then pySplit s
    else (c :: s.takeWhile (fun d => !isPySpace d)) ::
      pySplit (s.dropWhile (fun d => !isPySpace d))
termination_by l.length
decreasing_by
  · simp
  · simp only [List.length_cons]
    exact Nat.lt_succ_of_le (List.dropWhile_sublist _).length_le

/-- Python `" ".join(ws)` on the character-list view: the words interleaved
with single spaces. -/
def joinSp : List (List Char) → List Char
  | [] => []
  | [w] => w
  | w :: w' :: ws => w ++ ' ' :: joinSp (w' :: ws)

/-- The slicing loop of `_split_into_chunks`
(`for i in range(0, len(words), max_words): ... words[i:i + max_words]`),
as a recursion producing the successive word slices.  A step of `0` would
raise `ValueError` in Python and is unreachable in the script
(`MAX_WORDS_PER_CHUNK = 8000`); the `maxWords = 0` guard only keeps the
Lean function total. -/
def chunkList : List α → Nat → List (List α)
  | [], _ => []
  | a :: l, maxWords =>
    if maxWords = 0 then []
    else (a :: l).take maxWords :: chunkList ((a :: l).drop maxWords) maxWords
termination_by l _ => l.length
decreasing_by
  simp only [List.length_drop, List.length_cons]
  omega

/-- Unfolding equation of `chunkList` for a nonempty list and positive step. -/
theorem chunkList_eq {α : Type _} (l : List α) (w : Nat) (hl : l ≠ [])
    (hw : w ≠ 0) :
    chunkList l w = l.take w :: chunkList (l.drop w) w := by
  match l with
  | [] => exact absurd rfl hl
  | a :: l' => rw [chunkList, if_neg hw]

/-- `_split_into_chunks` from `code-review/reviewer.py`: split the text into
words, return the empty list when there are no words, otherwise the
space-joined slices of at most `maxWords` words each. -/
def splitIntoChunksL (text : List Char) (maxWords : Nat) : List (List Char) :=
  let words := pySplit text
  if words = [] then []
  else (chunkList words maxWords).map joinSp

/-! ### Generic facts about `pySplit`, `joinSp` and `chunkList` -/

theorem takeWhile_all {p : α → Bool} : ∀ {l : List α}, (∀ a ∈ l, p a) →
    l.takeWhile p = l
  | [], _ => rfl
  | a :: l, h => by
    simp only [List.takeWhile_cons, h a (List.mem_cons_self a l), if_true]
    exact congrArg (a :: ·) (takeWhile_all fun b hb => h b (List.mem_cons_of_mem a hb))

theorem dropWhile_all {p : α → Bool} : ∀ {l : List α}, (∀ a ∈ l, p a) →
    l.dropWhile p = []
  | [], _ => rfl
  | a :: l, h => by
    simp only [List.dropWhile_cons, h a (List.mem_cons_self a l), if_true]
    exact dropWhile_all fun b hb => h b (List.mem_cons_of_mem a hb)

theorem pySplit_cons_space {c : Char} (s : List Char) (h : isPySpace c) :
    pySplit (c :: s) = pySplit s := by
  rw [pySplit]; simp [h]

theorem pySplit_cons_word {c : Char} (s : List Char) (h : isPySpace c = false) :
    pySplit (c :: s) =
      (c :: s.takeWhile (fun d => !isPySpace d)) ::
        pySplit (s.dropWhile (fun d => !isPySpace d)) := by
  rw [pySplit]; simp [h]

/-- Splitting a nonempty whitespace-free word back gives the word. -/
theorem pySplit_word (w : List Char) (hw : w ≠ [])
    (hs : ∀ c ∈ w, isPySpace c = false) : pySplit w = [w] := by
  obtain ⟨c, cs, rfl⟩ := List.exists_cons_of_ne_nil hw
  rw [pySplit_cons_word cs (hs c (List.mem_cons_self c cs))]
  have hcs : ∀ d ∈ cs, (fun d => !isPySpace d) d = true := by
    intro d hd
    simp [hs d (List.mem_cons_of_mem c hd)]
  rw [takeWhile_all hcs, dropWhile_all hcs]
  simp [pySplit]

/-- Splitting a nonempty whitespace-free word followed by a space peels off
exactly that word. -/
theorem pySplit_word_append (w t : List Char) (hw : w ≠ [])
    (hs : ∀ c ∈ w, isPySpace c = false) :
    pySplit (w ++ ' ' :: t) = w :: pySplit t := by
  obtain ⟨c, cs, rfl⟩ := List.exists_cons_of_ne_nil hw
  rw [List.cons_append, pySplit_cons_word _ (hs c (List.mem_cons_self c cs))]
  have hcs : ∀ d ∈ cs, (fun d => !isPySpace d) d = true := by
    intro d hd
    simp [hs d (List.mem_cons_of_mem c hd)]
  rw [List.takeWhile_append_of_pos hcs, List.dropWhile_append_of_pos hcs]
  have hsp : isPySpace ' ' = true := by decide
  have h1 : List.takeWhile (fun d => !isPySpace d) (' ' :: t) = [] := by
    simp [List.takeWhile_cons, hsp]
  have h2 : List.dropWhile (fun d => !isPySpace d) (' ' :: t) = ' ' :: t := by
    simp [List.dropWhile_cons, hsp]
  rw [h1, h2, List.append_nil, pySplit_cons_space t hsp]

/-- Every word produced by `pySplit` is nonempty and whitespace-free. -/
theorem pySplit_words (s : List Char) : ∀ w ∈ pySplit s,
    w ≠ [] ∧ ∀ c ∈ w, isPySpace c = false := by
  match s with
  | [] => intro w hw; simp [pySplit] at hw
  | c :: s' =>
    by_cases hc : isPySpace c
    · rw [pySplit_cons_space s' hc]
      exact pySplit_words s'
    · rw [pySplit_cons_word s' (by simpa using hc)]
      intro w hw
      rcases List.mem_cons.mp hw with hw | hw
      · subst hw
        refine ⟨by simp, ?_⟩
        intro d hd
        rcases List.mem_cons.mp hd with hd | hd
        · subst hd; simpa using hc
        · simpa using List.mem_takeWhile_imp hd
      · exact pySplit_words (s'.dropWhile (fun d => !isPySpace d)) w hw
termination_by s.length
decreasing_by
  · simp
  · simp only [List.length_cons]
    exact Nat.lt_succ_of_le (List.dropWhile_sublist _).length_le

/-- Round trip: splitting the space-join of nonempty whitespace-free words
returns exactly those words. -/
theorem pySplit_joinSp : ∀ (ws : List (List Char)),
    (∀ w ∈ ws, w ≠ [] ∧ ∀ c ∈ w, isPySpace c = false) →
    pySplit (joinSp ws) = ws
  | [], _ => by simp [joinSp, pySplit]
  | [w], h => by
    have hw := h w (List.mem_cons_self w [])
    simpa [joinSp] using pySplit_word w hw.1 hw.2
  | w :: w' :: ws, h => by
    have hw := h w (List.mem_cons_self w _)
    rw [show joinSp (w :: w' :: ws) = w ++ ' ' :: joinSp (w' :: ws) from rfl]
    rw [pySplit_word_append w _ hw.1 hw.2]
    rw [pySplit_joinSp (w' :: ws) fun x hx => h x (List.mem_cons_of_mem w hx)]

/-- The word slices concatenate back to the full word list. -/
theorem chunkList_flatten {α : Type _} (w : Nat) (hw : 0 < w) (l : List α) :
    (chunkList l w).flatten = l := by
  match l with
  | [] => simp [chunkList]
  | a :: l' =>
    rw [chunkList_eq _ _ (by simp) (by omega), List.flatten_cons,
      chunkList_flatten w hw ((a :: l').drop w), List.take_append_drop]
termination_by l.length
decreasing_by simp only [List.length_drop, List.length_cons]; omega

/-- Each word slice has at most `w` words, and is nonempty. -/
theorem chunkList_mem {α : Type _} (w : Nat) (hw : 0 < w) (l : List α) :
    ∀ c ∈ chunkList l w, c.length ≤ w ∧ c ≠ [] := by
  match l with
  | [] => simp [chunkList]
  | a :: l' =>
    rw [chunkList_eq _ _ (by simp) (by omega)]
    intro c hc
    rcases List.mem_cons.mp hc with hc | hc
    · subst hc
      constructor
      · rw [List.length_take]
        exact Nat.min_le_left _ _
      · simp [List.take_eq_nil_iff]
        omega
    · exact chunkList_mem w hw ((a :: l').drop w) c hc
termination_by l.length
decreasing_by simp only [List.length_drop, List.length_cons]; omega

/-- The number of slices is the ceiling `⌈len / w⌉`, written `(len + w - 1) / w`. -/
theorem chunkList_length {α : Type _} (w : Nat) (hw : 0 < w) (l : List α) :
    (chunkList l w).length = (l.length + w - 1) / w := by
  match l with
  | [] =>
    simp only [chunkList, List.length_nil]
    symm
    apply Nat.div_eq_of_lt
    omega
  | a :: l' =>
    rw [chunkList_eq _ _ (by simp) (by omega), List.length_cons,
      chunkList_length w hw ((a :: l').drop w)]
    simp only [List.length_drop, List.length_cons]
    set n := l'.length + 1 with hn
    have hpos : 0 < n := by omega
    rcases Nat.lt_or_ge n w with hlw | hlw
    · have e1 : n - w = 0 := by omega
      rw [e1, Nat.div_eq_of_lt (by omega : 0 + w - 1 < w)]
      have e2 : n + w - 1 = (n - 1) + w := by omega
      rw [e2, Nat.add_div_right _ hw, Nat.div_eq_of_lt (by omega : n - 1 < w)]
    · have e1 : n - w + w - 1 = n - 1 := by omega
      have e2 : n + w - 1 = (n - 1) + w := by omega
      rw [e1, e2, Nat.add_div_right _ hw]
termination_by l.length
decreasing_by simp only [List.length_drop, List.length_cons]; omega

/-- Joining the concatenation of two nonempty word lists inserts one space
between them. -/
theorem joinSp_append : ∀ (xs ys : List (List Char)), xs ≠ [] → ys ≠ [] →
    joinSp (xs ++ ys) = joinSp xs ++ ' ' :: joinSp ys
  | [], _, hx, _ => absurd rfl hx
  | [_], [], _, hy => absurd rfl hy
  | [w], y :: ys, _, _ => by simp [joinSp]
  | w :: w' :: xs, ys, _, hy => by
    have ih := joinSp_append (w' :: xs) ys (by simp) hy
    have e : (w :: w' :: xs) ++ ys = w :: ((w' :: xs) ++ ys) := by simp
    rw [e]
    match h : (w' :: xs) ++ ys with
    | [] => simp at h
    | z :: zs =>
      rw [show joinSp (w :: z :: zs) = w ++ ' ' :: joinSp (z :: zs) from rfl]
      rw [← h, ih]
      rw [show joinSp (w :: w' :: xs) = w ++ ' ' :: joinSp (w' :: xs) from rfl]
      simp

/-- Space-joining the space-joins of a partition equals space-joining the
flattened word list, provided every part is nonempty. -/
theorem joinSp_map_flatten : ∀ (ll : List (List (List Char))),
    (∀ x ∈ ll, x ≠ []) → joinSp (ll.map joinSp) = joinSp ll.flatten
  | [], _ => rfl
  | [x], _ => by simp [joinSp]
  | x :: y :: ll, h => by
    have hx : x ≠ [] := h x (List.mem_cons_self x _)
    have hyne : (y :: ll).flatten ≠ [] := by
      intro hc
      rw [List.flatten_cons] at hc
      exact h y (by simp) (List.append_eq_nil.mp hc).1
    have ih := joinSp_map_flatten (y :: ll)
      (fun z hz => h z (List.mem_cons_of_mem x hz))
    calc joinSp ((x :: y :: ll).map joinSp)
        = joinSp x ++ ' ' :: joinSp ((y :: ll).map joinSp) := rfl
      _ = joinSp x ++ ' ' :: joinSp ((y :: ll).flatten) := by rw [ih]
      _ = joinSp (x ++ (y :: ll).flatten) :=
          (joinSp_append x ((y :: ll).flatten) hx hyne).symm
      _ = joinSp ((x :: y :: ll).flatten) := by simp [List.flatten_cons]

/-- Claim C1: for a diff text with at least one word and a chunk size
`W ≥ 1`, `_split_into_chunks` returns exactly `⌈N/W⌉` chunks, each chunk
holds at most `W` words, and joining the chunks with single spaces
reconstructs the original word sequence. -/
theorem C1_split_into_chunks_correct (text : List Char) (W : Nat)
    (hW : 1 ≤ W) (hN : 1 ≤ (pySplit text).length) :
    (splitIntoChunksL text W).length = ((pySplit text).length + W - 1) / W ∧
    (∀ ch ∈ splitIntoChunksL text W, (pySplit ch).length ≤ W) ∧
    pySplit (joinSp (splitIntoChunksL text W)) = pySplit text := by
  have hne : pySplit text ≠ [] := by
    intro h; rw [h] at hN; simp at hN
  have hw : 0 < W := hW
  have hwords := pySplit_words text
  have hchunks : ∀ c ∈ chunkList (pySplit text) W, c.length ≤ W ∧ c ≠ [] :=
    chunkList_mem W hw (pySplit text)
  have hflat : (chunkList (pySplit text) W).flatten = pySplit text :=
    chunkList_flatten W hw (pySplit text)
  have hsplit : splitIntoChunksL text W = (chunkList (pySplit text) W).map joinSp := by
    simp only [splitIntoChunksL, if_neg hne]
  have hmemwf : ∀ ws ∈ chunkList (pySplit text) W,
      ∀ w ∈ ws, w ≠ [] ∧ ∀ c ∈ w, isPySpace c = false := by
    intro ws hws w hwmem
    exact hwords w (hflat ▸ List.mem_flatten.mpr ⟨ws, hws, hwmem⟩)
  refine ⟨?_, ?_, ?_⟩
  · rw [hsplit, List.length_map, chunkList_length W hw]
  · intro ch hch
    rw [hsplit] at hch
    obtain ⟨ws, hws, rfl⟩ := List.mem_map.mp hch
    rw [pySplit_joinSp ws (hmemwf ws hws)]
    exact (hchunks ws hws).1
  · rw [hsplit, joinSp_map_flatten _ (fun x hx => (hchunks x hx).2), hflat,
      pySplit_joinSp (pySplit text) hwords]

/-- Concrete instantiation of C1: the text `"a b c"` with chunk size 2 has
three words and splits into two chunks of the stated shape. -/
theorem C1_split_into_chunks_correct_witness :
    1 ≤ (2 : Nat) ∧ 1 ≤ (pySplit "a b c".data).length ∧
    ((splitIntoChunksL "a b c".data 2).length =
        ((pySplit "a b c".data).length + 2 - 1) / 2 ∧
      (∀ ch ∈ splitIntoChunksL "a b c".data 2, (pySplit ch).length ≤ 2) ∧
      pySplit (joinSp (splitIntoChunksL "a b c".data 2)) = pySplit "a b c".data) := by
  have h1 : "a b c".data = joinSp [['a'], ['b'], ['c']] := by decide
  have h2 : 1 ≤ (pySplit "a b c".data).length := by
    rw [h1, pySplit_joinSp _ (by decide)]
    decide
  exact ⟨by decide, h2, C1_split_into_chunks_correct "a b c".data 2 (by decide) h2⟩

/-! ## Embedding of `code-review/reviewer.py` -/

/-- Outcome of `subprocess.run(["git", "show", "HEAD"], ...)` as the script
observes it: `git` missing from PATH (`FileNotFoundError`), a nonzero exit
status (`CalledProcessError`, carrying `stderr`), or success carrying
`stdout`. -/
inductive GitOutcome where
  | fileNotFound
  | calledProcessError (stderr : String)
  | ok (stdout : String)
deriving DecidableEq

/-- The framework's `AgentOutput(input_id=..., result=..., error=...)`
envelope; `result` and `error` both default to `None`. -/
structure AgentOutput (ρ : Type) where
  inputId : String
  result : Option ρ := none
  error : Option String := none
deriving DecidableEq

/-- One per-chunk record `{"part": i, "summary": res}`. -/
structure ChunkSummary where
  part : Nat
  summary : String
deriving DecidableEq

/-- The result payloads `CodeReviewer.forward` can return: the empty-diff
`{"summary": ...}`, the single-chunk `{"content": ...}`, and the
multi-chunk `{"parts": ..., "final_review": ...}`. -/
inductive ReviewResult where
  | summary (s : String)
  | content (s : String)
  | parts (ps : List ChunkSummary) (finalReview : String)
deriving DecidableEq

/-- A language-model client: maps the single user-message prompt to the
extracted response content, or to `.error msg` when the call raises. -/
abbrev LMOracle := String → Except String String

/-- The per-chunk prompt built by `summarize_chunk(idx, total, chunk_text)`. -/
def chunkPrompt (idx total : Nat) (chunkText : String) : String :=
  "Please act as a senior software engineer and provide a code review for part "
    ++ toString idx ++ " of " ++ toString total ++ " of a git diff.\n\n"
    ++ "Provide a concise summary of the changes in this part and identify any potential issues, such as bugs, style inconsistencies, or areas for improvement.\n\n"
    ++ "Include a short list of actionable suggestions (1-3 items) if applicable.\n\n"
    ++ "Here is the diff part:\n\n```diff\n" ++ chunkText ++ "\n```\n"

/-- The prompt of the small-diff single request. -/
def singlePrompt (diffContent : String) : String :=
  "Please act as a senior software engineer and provide a code review for the following git diff.\n\n"
    ++ "Provide a concise summary of the changes and identify any potential issues, such as bugs, style inconsistencies, or areas for improvement.\n\n"
    ++ "Here is the diff:\n\n```diff\n" ++ diffContent ++ "\n```\n"

/-- The fixed part of the consolidation prompt. -/
def consolidationHeader (total : Nat) : String :=
  "The git diff was split into " ++ toString total
    ++ " parts. Below are the per-part summaries.\n\n"
    ++ "Please produce a single consolidated code review that: (1) gives a concise overall summary of the changes, "
    ++ "(2) aggregates and prioritizes potential issues across all parts (merge duplicates), and (3) provides an overall list "
    ++ "of actionable suggestions. Keep the final review concise.\n\n"
    ++ "Per-part summaries:\n\n"

/-- One appended line of the consolidation prompt loop
(`f"Part {cs['part']}:\n{cs['summary']}\n\n"`). -/
def partLine (cs : ChunkSummary) : String :=
  "Part " ++ toString cs.part ++ ":\n" ++ cs.summary ++ "\n\n"

/-- The consolidation prompt: the header plus one line per chunk summary,
appended in list order exactly as the `for cs in chunk_summaries` loop. -/
def consolidationPrompt (total : Nat) (summaries : List ChunkSummary) : String :=
  summaries.foldl (fun acc cs => acc ++ partLine cs) (consolidationHeader total)

/-- `MAX_WORDS_PER_CHUNK = 8000` and the call
`_split_into_chunks(diff_content, MAX_WORDS_PER_CHUNK)`. -/
def reviewChunks (diffContent : String) : List (List Char) :=
  splitIntoChunksL diffContent.data 8000

/-- The chunk prompts in task-creation order
(`enumerate(chunks, start=1)` feeding `summarize_chunk`). -/
def chunkPromptsOf (diffContent : String) : List String :=
  (reviewChunks diffContent).mapIdx
    (fun i ch => chunkPrompt (i + 1) (reviewChunks diffContent).length (String.mk ch))

/-- The per-chunk model outcomes, listed in task order as
`asyncio.gather(*tasks, return_exceptions=True)` returns them. -/
def chunkResults (diffContent : String) (llm : LMOracle) : List (Except String String) :=
  (chunkPromptsOf diffContent).map llm

/-- The `for i, res in enumerate(results, start=1)` loop: abort with the
first exception (its 1-based position and message), otherwise collect the
`{"part": i, "summary": res}` records in order.  `i` is the position of the
first element processed. -/
def collectSummaries : Nat → List (Except String String) → Except (Nat × String) (List ChunkSummary)
  | _, [] => .ok []
  | i, .error e :: _ => .error (i, e)
  | i, .ok s :: rs =>
    match collectSummaries (i + 1) rs with
    | .error x => .error x
    | .ok tl => .ok (⟨i, s⟩ :: tl)

/-- `CodeReviewer.forward`.  The returned pair is the `AgentOutput`
envelope together with the list of prompts sent to the model during the
call, in task-creation order (the multi-chunk path fires all chunk prompts
concurrently and waits for all of them before anything else happens, so the
set of issued calls is exactly this list). -/
def reviewerForward (inputId : String) (git : GitOutcome) (llm : LMOracle) :
    AgentOutput ReviewResult × List String :=
  match git with
  | .fileNotFound =>
    (⟨inputId, none, some "Git is not installed or not in the system's PATH."⟩, [])
  | .calledProcessError stderr =>
    (⟨inputId, none, some ("Git command failed: " ++ stderr)⟩, [])
  | .ok diffContent =>
    if diffContent = "" then
      (⟨inputId, some (.summary "No changes found in the last commit."), none⟩, [])
    else
      let chunks := reviewChunks diffContent
      if chunks.length ≤ 1 then
        match llm (singlePrompt diffContent) with
        | .ok c => (⟨inputId, some (.content c), none⟩, [singlePrompt diffContent])
        | .error e =>
          (⟨inputId, none, some ("Failed to get review from LLM: " ++ e)⟩,
            [singlePrompt diffContent])
      else
        match collectSummaries 1 (chunkResults diffContent llm) with
        | .error (i, e) =>
          (⟨inputId, none,
            some ("Failed to get summary for chunk " ++ toString i ++ ": " ++ e)⟩,
            chunkPromptsOf diffContent)
        | .ok chunkSummaries =>
          let cp := consolidationPrompt chunks.length chunkSummaries
          match llm cp with
          | .ok finalReview =>
            (⟨inputId, some (.parts chunkSummaries finalReview), none⟩,
              chunkPromptsOf diffContent ++ [cp])
          | .error e =>
            (⟨inputId, none, some ("Failed to consolidate summaries: " ++ e)⟩,
              chunkPromptsOf diffContent ++ [cp])

/-! ### Facts about the result-collection loop -/

/-- When every gathered result is a success, the loop collects one record
per result, in order, tagged with consecutive indices starting at `n`. -/
theorem collectSummaries_ok (rs : List (Except String String)) :
    ∀ (n : Nat), (∀ r ∈ rs, ∃ s, r = Except.ok s) →
    ∃ ps, collectSummaries n rs = .ok ps ∧ ps.length = rs.length ∧
      ∀ k, k < rs.length →
        ∃ s, rs[k]? = some (.ok s) ∧ ps[k]? = some ⟨n + k, s⟩ := by
  induction rs with
  | nil =>
    intro n _
    exact ⟨[], rfl, rfl, by intro k hk; simp at hk⟩
  | cons r rs ih =>
    intro n h
    obtain ⟨s, rfl⟩ := h r (List.mem_cons_self r rs)
    obtain ⟨tl, htl, hlen, hget⟩ := ih (n + 1) (fun x hx => h x (List.mem_cons_of_mem _ hx))
    refine ⟨⟨n, s⟩ :: tl, ?_, by simp [hlen], ?_⟩
    · simp [collectSummaries, htl]
    · intro k hk
      cases k with
      | zero => exact ⟨s, by simp, by simp⟩
      | succ k =>
        obtain ⟨s', h1, h2⟩ := hget k (by simpa using hk)
        refine ⟨s', by simpa using h1, ?_⟩
        have e : n + (k + 1) = (n + 1) + k := by omega
        simpa [e] using h2

/-- The loop aborts at the first failure, reporting its position (counted
from `n`) and the exception's message. -/
theorem collectSummaries_error (rs : List (Except String String)) :
    ∀ (n j : Nat) (e : String), rs[j]? = some (.error e) →
    (∀ k, k < j → ∃ s, rs[k]? = some (.ok s)) →
    collectSummaries n rs = .error (n + j, e) := by
  induction rs with
  | nil => intro n j e hj; simp at hj
  | cons r rs ih =>
    intro n j e hj hmin
    cases j with
    | zero =>
      simp only [List.getElem?_cons_zero, Option.some.injEq] at hj
      subst hj
      rfl
    | succ j =>
      obtain ⟨s, hs⟩ := hmin 0 (Nat.succ_pos j)
      simp only [List.getElem?_cons_zero, Option.some.injEq] at hs
      subst hs
      have hrec := ih (n + 1) j e (by simpa using hj)
        (fun k hk => by simpa using hmin (k + 1) (by omega))
      rw [show n + (j + 1) = (n + 1) + j from by omega]
      simp only [collectSummaries, hrec]

/-- The multi-chunk path fires one prompt per chunk. -/
theorem chunkResults_length (d : String) (llm : LMOracle) :
    (chunkResults d llm).length = (reviewChunks d).length := by
  simp [chunkResults, chunkPromptsOf]

/-- Claim C2: in the multi-chunk path, if the model call for some chunk
raises, `forward` returns an error output naming the first failing chunk in
index order (1-based), and no result payload — in particular no partial
chunk summaries — is returned; the prompts issued are exactly the chunk
prompts (no consolidation call happens). -/
theorem C2_chunk_failure_aborts (inputId diffContent : String) (llm : LMOracle)
    (j : Nat) (e : String)
    (hd : diffContent ≠ "")
    (h2 : 2 ≤ (reviewChunks diffContent).length)
    (hj : (chunkResults diffContent llm)[j]? = some (.error e))
    (hmin : ∀ k, k < j → ∃ s, (chunkResults diffContent llm)[k]? = some (.ok s)) :
    reviewerForward inputId (.ok diffContent) llm =
      (⟨inputId, none,
        some ("Failed to get summary for chunk " ++ toString (1 + j) ++ ": " ++ e)⟩,
        chunkPromptsOf diffContent) := by
  have herr := collectSummaries_error (chunkResults diffContent llm) 1 j e hj hmin
  simp only [reviewerForward, if_neg hd, if_neg (by omega : ¬(reviewChunks diffContent).length ≤ 1),
    herr]

/-- Claim C4: a nonempty diff that splits into at most one chunk issues
exactly one model call, on the whole diff, and (when the call succeeds)
returns the single `{"content": ...}` result with no consolidation. -/
theorem C4_single_chunk_single_call (inputId diffContent : String) (llm : LMOracle)
    (hd : diffContent ≠ "") (h1 : (reviewChunks diffContent).length ≤ 1) :
    (reviewerForward inputId (.ok diffContent) llm).2 = [singlePrompt diffContent] ∧
    ∀ c, llm (singlePrompt diffContent) = .ok c →
      (reviewerForward inputId (.ok diffContent) llm).1 =
        ⟨inputId, some (.content c), none⟩ := by
  constructor
  · simp only [reviewerForward, if_neg hd, if_pos h1]
    cases llm (singlePrompt diffContent) <;> rfl
  · intro c hc
    simp only [reviewerForward, if_neg hd, if_pos h1, hc]

/-- Claim C5: an empty git diff yields the defined no-content summary
result, and the model is never called. -/
theorem C5_empty_diff_no_model_call (inputId : String) (llm : LMOracle) :
    reviewerForward inputId (.ok "") llm =
      (⟨inputId, some (.summary "No changes found in the last commit."), none⟩, []) := by
  simp [reviewerForward]

/-! ### Concrete inputs used by witnesses -/

/-- 8001 one-letter words: one more word than `MAX_WORDS_PER_CHUNK`. -/
def bigWords : List (List Char) := List.replicate 8001 ['a']

/-- A diff text of 8001 words, which splits into two chunks. -/
def bigDiff : String := String.mk (joinSp bigWords)

/-- A model client whose every call raises. -/
def failLLM : LMOracle := fun _ => .error "boom"

/-- A model client whose every call succeeds with content `"fine"`. -/
def okLLM : LMOracle := fun _ => .ok "fine"

theorem map_const_eq {α β : Type _} (l : List α) (b : β) :
    l.map (fun _ => b) = List.replicate l.length b := by
  induction l with
  | nil => rfl
  | cons a l ih => simp [ih, List.replicate_succ]

theorem bigWords_wf : ∀ w ∈ bigWords, w ≠ [] ∧ ∀ c ∈ w, isPySpace c = false := by
  intro w hw
  rw [List.eq_of_mem_replicate hw]
  exact ⟨by decide, by decide⟩

theorem pySplit_bigDiff : pySplit bigDiff.data = bigWords :=
  pySplit_joinSp bigWords bigWords_wf

theorem bigWords_length : bigWords.length = 8001 := by
  rw [bigWords, List.length_replicate]

theorem bigDiff_ne_empty : bigDiff ≠ "" := by
  intro h
  have hd : joinSp bigWords = [] := congrArg String.data h
  have h1 : (pySplit (joinSp bigWords)).length = 8001 := by
    rw [pySplit_joinSp bigWords bigWords_wf, bigWords_length]
  rw [hd] at h1
  simp [pySplit] at h1

theorem reviewChunks_bigDiff_len : (reviewChunks bigDiff).length = 2 := by
  have hne : bigWords ≠ [] := by
    intro h
    have h2 := congrArg List.length h
    rw [bigWords_length] at h2
    simp at h2
  rw [reviewChunks, splitIntoChunksL]
  simp only [pySplit_bigDiff, if_neg hne]
  rw [List.length_map, chunkList_length 8000 (by norm_num) bigWords, bigWords_length]

theorem chunkResults_bigDiff_fail :
    chunkResults bigDiff failLLM = List.replicate 2 (Except.error "boom") := by
  have h1 : chunkResults bigDiff failLLM =
      List.replicate (chunkPromptsOf bigDiff).length (Except.error "boom") := by
    simp only [chunkResults, failLLM]
    exact map_const_eq _ _
  rw [h1, chunkPromptsOf, List.length_mapIdx, reviewChunks_bigDiff_len]

/-- Concrete instantiation of C2: on the 8001-word diff with a model that
always raises `boom`, the operation aborts naming chunk 1. -/
theorem C2_chunk_failure_aborts_witness :
    bigDiff ≠ "" ∧ 2 ≤ (reviewChunks bigDiff).length ∧
    (chunkResults bigDiff failLLM)[0]? = some (.error "boom") ∧
    reviewerForward "in1" (.ok bigDiff) failLLM =
      (⟨"in1", none,
        some ("Failed to get summary for chunk " ++ toString (1 + 0) ++ ": " ++ "boom")⟩,
        chunkPromptsOf bigDiff) := by
  have h2 : 2 ≤ (reviewChunks bigDiff).length := by rw [reviewChunks_bigDiff_len]
  have hj : (chunkResults bigDiff failLLM)[0]? = some (.error "boom") := by
    rw [chunkResults_bigDiff_fail]
    rfl
  exact ⟨bigDiff_ne_empty, h2, hj,
    C2_chunk_failure_aborts "in1" bigDiff failLLM 0 "boom" bigDiff_ne_empty h2 hj
      (fun k hk => absurd hk (Nat.not_lt_zero k))⟩

theorem reviewChunks_ab_len : (reviewChunks "a b").length = 1 := by
  have h1 : ("a b" : String).data = joinSp [['a'], ['b']] := by decide
  have hw : ∀ w ∈ [['a'], ['b']], w ≠ [] ∧ ∀ c ∈ w, isPySpace c = false := by decide
  have hsplit : pySplit ("a b" : String).data = [['a'], ['b']] := by
    rw [h1]
    exact pySplit_joinSp _ hw
  rw [reviewChunks, splitIntoChunksL]
  simp only [hsplit, if_neg (by simp : ¬([['a'], ['b']] : List (List Char)) = [])]
  rw [List.length_map, chunkList_length 8000 (by norm_num)]
  norm_num

/-- Concrete instantiation of C4: the two-word diff `"a b"` is a single
chunk; one call on the whole diff, one content result. -/
theorem C4_single_chunk_single_call_witness :
    ("a b" : String) ≠ "" ∧ (reviewChunks "a b").length ≤ 1 ∧
    (reviewerForward "in2" (.ok "a b") okLLM).2 = [singlePrompt "a b"] ∧
    (reviewerForward "in2" (.ok "a b") okLLM).1 = ⟨"in2", some (.content "fine"), none⟩ := by
  have hd : ("a b" : String) ≠ "" := by decide
  have h1 : (reviewChunks "a b").length ≤ 1 := by rw [reviewChunks_ab_len]
  have h := C4_single_chunk_single_call "in2" "a b" okLLM hd h1
  exact ⟨hd, h1, h.1, h.2 "fine" rfl⟩

/-- The concatenation, in list order, of the per-part lines of the
consolidation prompt. -/
def partsText : List ChunkSummary → String
  | [] => ""
  | cs :: rest => partLine cs ++ partsText rest

/-- The `consolidation_prompt += ...` loop appends the per-part lines in
list order after whatever the prompt already holds. -/
theorem consolidationPrompt_parts (ps : List ChunkSummary) :
    ∀ (init : String),
      ps.foldl (fun acc cs => acc ++ partLine cs) init = init ++ partsText ps := by
  induction ps with
  | nil =>
    intro init
    simp [partsText]
  | cons cs ps ih =>
    intro init
    simp only [List.foldl_cons, partsText]
    rw [ih, String.append_assoc]

/-- Claim C9: in the multi-chunk success path the result's parts are one
record per chunk, tagged with the 1-based chunk index, listed in original
chunk order `1..total`, and the consolidation prompt lists the per-part
summaries in that same order after its fixed header. -/
theorem C9_multi_chunk_parts_in_order (inputId diffContent : String) (llm : LMOracle)
    (hd : diffContent ≠ "")
    (h2 : 2 ≤ (reviewChunks diffContent).length)
    (hok : ∀ r ∈ chunkResults diffContent llm, ∃ s, r = Except.ok s) :
    ∃ ps : List ChunkSummary,
      ps.length = (reviewChunks diffContent).length ∧
      ps.map ChunkSummary.part = List.range' 1 (reviewChunks diffContent).length ∧
      (∀ k, k < (reviewChunks diffContent).length →
        ∃ s, (chunkResults diffContent llm)[k]? = some (.ok s) ∧
          ps[k]? = some ⟨1 + k, s⟩) ∧
      consolidationPrompt (reviewChunks diffContent).length ps =
        consolidationHeader (reviewChunks diffContent).length ++ partsText ps ∧
      reviewerForward inputId (.ok diffContent) llm =
        (match llm (consolidationPrompt (reviewChunks diffContent).length ps) with
          | .ok fr =>
            (⟨inputId, some (.parts ps fr), none⟩,
              chunkPromptsOf diffContent ++
                [consolidationPrompt (reviewChunks diffContent).length ps])
          | .error e =>
            (⟨inputId, none, some ("Failed to consolidate summaries: " ++ e)⟩,
              chunkPromptsOf diffContent ++
                [consolidationPrompt (reviewChunks diffContent).length ps])) := by
  obtain ⟨ps, hps, hlen, hget⟩ := collectSummaries_ok (chunkResults diffContent llm) 1 hok
  have hlr := chunkResults_length diffContent llm
  have hget' : ∀ k, k < (reviewChunks diffContent).length →
      ∃ s, (chunkResults diffContent llm)[k]? = some (.ok s) ∧
        ps[k]? = some ⟨1 + k, s⟩ := by
    intro k hk
    exact hget k (by rw [hlr]; exact hk)
  refine ⟨ps, by rw [hlen, hlr], ?_, hget', consolidationPrompt_parts ps _, ?_⟩
  · apply List.ext_getElem?
    intro k
    by_cases hk : k < (reviewChunks diffContent).length
    · obtain ⟨s, _, h2'⟩ := hget' k hk
      rw [List.getElem?_map, h2', List.getElem?_range']
      · simp
      · exact hk
    · have hk1 : ps[k]? = none := by
        rw [List.getElem?_eq_none_iff, hlen, hlr]
        omega
      have hk2 : (List.range' 1 (reviewChunks diffContent).length)[k]? = none := by
        rw [List.getElem?_eq_none_iff, List.length_range']
        omega
      rw [List.getElem?_map, hk1, hk2]
      rfl
  · simp only [reviewerForward, if_neg hd,
      if_neg (by omega : ¬(reviewChunks diffContent).length ≤ 1), hps]

theorem chunkResults_bigDiff_ok :
    chunkResults bigDiff okLLM = List.replicate 2 (Except.ok "fine") := by
  have h1 : chunkResults bigDiff okLLM =
      List.replicate (chunkPromptsOf bigDiff).length (Except.ok "fine") := by
    simp only [chunkResults, okLLM]
    exact map_const_eq _ _
  rw [h1, chunkPromptsOf, List.length_mapIdx, reviewChunks_bigDiff_len]

/-- Concrete instantiation of C9: the 8001-word diff with an always-`fine`
model produces ordered, index-tagged parts and the stated consolidation. -/
theorem C9_multi_chunk_parts_in_order_witness :
    bigDiff ≠ "" ∧ 2 ≤ (reviewChunks bigDiff).length ∧
    (∀ r ∈ chunkResults bigDiff okLLM, ∃ s, r = Except.ok s) ∧
    (∃ ps : List ChunkSummary,
      ps.length = (reviewChunks bigDiff).length ∧
      ps.map ChunkSummary.part = List.range' 1 (reviewChunks bigDiff).length ∧
      (∀ k, k < (reviewChunks bigDiff).length →
        ∃ s, (chunkResults bigDiff okLLM)[k]? = some (.ok s) ∧
          ps[k]? = some ⟨1 + k, s⟩) ∧
      consolidationPrompt (reviewChunks bigDiff).length ps =
        consolidationHeader (reviewChunks bigDiff).length ++ partsText ps ∧
      reviewerForward "in3" (.ok bigDiff) okLLM =
        (match okLLM (consolidationPrompt (reviewChunks bigDiff).length ps) with
          | .ok fr =>
            (⟨"in3", some (.parts ps fr), none⟩,
              chunkPromptsOf bigDiff ++
                [consolidationPrompt (reviewChunks bigDiff).length ps])
          | .error e =>
            (⟨"in3", none, some ("Failed to consolidate summaries: " ++ e)⟩,
              chunkPromptsOf bigDiff ++
                [consolidationPrompt (reviewChunks bigDiff).length ps]))) := by
  have h2 : 2 ≤ (reviewChunks bigDiff).length := by rw [reviewChunks_bigDiff_len]
  have hok : ∀ r ∈ chunkResults bigDiff okLLM, ∃ s, r = Except.ok s := by
    intro r hr
    rw [chunkResults_bigDiff_ok] at hr
    exact ⟨"fine", List.eq_of_mem_replicate hr⟩
  exact ⟨bigDiff_ne_empty, h2, hok,
    C9_multi_chunk_parts_in_order "in3" bigDiff okLLM bigDiff_ne_empty h2 hok⟩


/-! ## Embedding of `docqa/qa.py` -/

deriving instance DecidableEq for Except

/-- Python `.lower()` (ASCII letters; the script only compares ASCII). -/
def lowerStr (s : String) : String := String.mk (s.data.map Char.toLower)

/-- The characters `urllib.parse` allows in a URL scheme. -/
def isSchemeChar (c : Char) : Bool :=
  c.isAlpha || c.isDigit || c == '+' || c == '-' || c == '.'

/-- The input preprocessing of CPython's `urlsplit`: strip leading C0
controls and spaces (the WHATWG rule; only the left end is stripped), then
remove every tab, carriage return and line feed. -/
def urlPreprocess (u : List Char) : List Char :=
  (u.dropWhile (fun c => decide (c.toNat ≤ 32))).filter
    (fun c => !(c == '\t' || c == '\r' || c == '\n'))

/-- The scheme-splitting step of `urlsplit` (applied after
`urlPreprocess`): when the text up to the first `:` is a nonempty run of
scheme characters starting with a letter, it is the (lowercased) scheme and
the remainder follows the colon; otherwise the scheme is empty and nothing
is consumed. -/
def splitSchemeRest (u : List Char) : List Char × List Char :=
  match u.findIdx? (fun c => c == ':') with
  | none => ([], u)
  | some i =>
    if (u.take i).head?.any Char.isAlpha && (u.take i).all isSchemeChar then
      ((u.take i).map Char.toLower, u.drop (i + 1))
    else ([], u)

/-- CPython's `uses_params`: the schemes for which `urlparse` separates
`;params` from the last path segment. -/
def usesParams : List (List Char) :=
  (["", "ftp", "hdl", "prospero", "http", "imap", "https", "shttp", "rtsp",
    "rtsps", "rtspu", "sip", "sips", "mms", "sftp", "tel"] :
      List String).map String.data

/-- `urllib.parse._splitparams` on the path component: cut at the first `;`
of the last segment (the whole path is kept when the last segment has no
`;`). -/
def splitParams (p : List Char) : List Char :=
  if '/' ∈ p then
    let lastSlash := p.length - 1 - p.reverse.findIdx (fun c => c == '/')
    match (p.drop lastSlash).findIdx? (fun c => c == ';') with
    | none => p
    | some m => p.take (lastSlash + m)
  else p.takeWhile (fun c => !(c == ';'))

/-- Fragment and query stripping of `urlsplit` plus the `;params` split of
`urlparse` (only for schemes in `uses_params`), yielding the `path`
component from the post-netloc remainder. -/
def pathPostprocess (scheme r : List Char) : List Char :=
  let p := (r.takeWhile (fun c => !(c == '#'))).takeWhile (fun c => !(c == '?'))
  if scheme ∈ usesParams ∧ ';' ∈ p then splitParams p else p

/-- A raw HTTP response as the script consumes it: the `Content-Type`
header (`""` when the header is absent, matching
`resp.headers.get("Content-Type", "")`) and the body bytes returned by
`resp.read()`. -/
structure HttpResponse where
  contentType : String
  body : List Nat
deriving DecidableEq

/-- The external world of `docqa/qa.py`.  Each field models one effectful
primitive (a `none`/`some msg` models the corresponding call raising) or
one standard-library routine whose internal grammar lives outside this
repository. -/
structure Env where
  /-- `open(path, "rb").read()`: the byte content of a readable file;
  `none` when opening or reading raises (missing file, directory,
  permissions). -/
  fileBytes : String → Option (List Nat)
  /-- `data.decode(encoding)` (also text-mode reading with that encoding):
  `none` when decoding raises. -/
  decode : List Nat → String → Option String
  /-- `pymupdf4llm.to_markdown` on a file holding the given bytes; `none`
  when parsing raises. -/
  pdfToMarkdown : List Nat → Option String
  /-- `urlopen(Request(url, headers={...}))`: `none` when the fetch
  raises. -/
  urlopen : String → Option HttpResponse
  /-- `os.path.expanduser`. -/
  expanduser : String → String
  /-- `urllib.request.url2pathname`. -/
  url2pathname : String → String
  /-- `urllib.parse._check_bracketed_host`: validation of a balanced
  bracketed netloc host (IPvFuture regex or `ipaddress.ip_address`);
  `some msg` is the message of the `ValueError` it raises, `none` means
  the host is accepted.  The address grammar is standard-library code, so
  it is abstracted as an oracle; the bracket-balance check that precedes
  it is modelled concretely. -/
  checkBracketedHost : List Char → Option String
  /-- The NFKC check of `urllib.parse._checknetloc` for non-ASCII netlocs;
  `some msg` is the raised `ValueError`'s message.  ASCII netlocs never
  raise and are handled concretely; only non-ASCII netlocs consult this. -/
  checkNetlocNFKC : List Char → Option String

/-- The remainder of `urlparse` after the scheme split: `_splitnetloc`,
the bracket-balance check (raising `ValueError("Invalid IPv6 URL")`
exactly where CPython does), `_check_bracketed_host` for balanced
brackets, `_checknetloc`, fragment/query stripping and the `;params`
split.  Yields the `path` component or the raised `ValueError`'s
message. -/
def urlparsePathE (env : Env) (scheme rest : List Char) : Except String (List Char) :=
  match rest with
  | '/' :: '/' :: after =>
    let netloc := after.takeWhile (fun c => !(c == '/' || c == '?' || c == '#'))
    let rest1 := after.dropWhile (fun c => !(c == '/' || c == '?' || c == '#'))
    if ('[' ∈ netloc ∧ ¬(']' ∈ netloc)) ∨ (']' ∈ netloc ∧ ¬('[' ∈ netloc)) then
      .error "Invalid IPv6 URL"
    else
      match (if '[' ∈ netloc ∧ ']' ∈ netloc then
          env.checkBracketedHost
            (((netloc.dropWhile (fun c => !(c == '['))).drop 1).takeWhile
              (fun c => !(c == ']')))
        else none) with
      | some msg => .error msg
      | none =>
        match (if netloc.all (fun c => decide (c.toNat < 128)) then none
          else env.checkNetlocNFKC netloc) with
        | some msg => .error msg
        | none => .ok (pathPostprocess scheme rest1)
  | _ => .ok (pathPostprocess scheme rest)

/-- `urlparse(u)` restricted to the two components the script reads — the
scheme (lowercased by `urlsplit` itself) and the path — or the
`ValueError` CPython raises on a malformed URL. -/
def urlparseE (env : Env) (u : String) : Except String (String × String) :=
  let pre := urlPreprocess u.data
  let sr := splitSchemeRest pre
  match urlparsePathE env sr.1 sr.2 with
  | .error e => .error e
  | .ok path => .ok (String.mk sr.1, String.mk path)

/-- Python `s.split(sep)` for a one-character separator, keeping empty
parts. -/
def splitOnCharAux (sep : Char) : List Char → List Char → List (List Char)
  | [], acc => [acc.reverse]
  | c :: rest, acc =>
    if c == sep then acc.reverse :: splitOnCharAux sep rest []
    else splitOnCharAux sep rest (c :: acc)

def splitOnChar (sep : Char) (l : List Char) : List (List Char) :=
  splitOnCharAux sep l []

/-- `pathlib.PurePosixPath(p).name`: the final path component, after
dropping empty and `.` components. -/
def pathName (p : String) : List Char :=
  ((splitOnChar '/' p.data).filter
    (fun seg => !(seg.isEmpty || seg == ['.']))).getLastD []

/-- `pathlib.PurePosixPath(p).suffix`: the part of the name from its last
dot on, empty when that dot is leading or trailing. -/
def pathSuffix (p : String) : String :=
  let name := pathName p
  match name.reverse.findIdx? (fun c => c == '.') with
  | none => ""
  | some j =>
    let i := name.length - 1 - j
    if 0 < i ∧ i < name.length - 1 then String.mk (name.drop i) else ""

/-- Python `str.strip()`: remove leading and trailing whitespace. -/
def pyStrip (l : List Char) : List Char :=
  ((l.dropWhile isPySpace).reverse.dropWhile isPySpace).reverse

/-- Helper for `afterLastSub`, working on the reversed list: everything
strictly before the first occurrence of the (reversed) pattern. -/
def afterLastSubAux (patR : List Char) : List Char → List Char
  | [] => []
  | c :: rest =>
    if patR.isPrefixOf (c :: rest) then [] else c :: afterLastSubAux patR rest

/-- The characters after the last occurrence of `pat`
(Python `s.split(pat)[-1]`; the whole string when `pat` does not occur). -/
def afterLastSub (pat l : List Char) : List Char :=
  (afterLastSubAux pat.reverse l.reverse).reverse

/-- Python `pat in s` (substring containment). -/
def containsSub (pat : List Char) : List Char → Bool
  | [] => pat.isPrefixOf []
  | c :: rest => pat.isPrefixOf (c :: rest) || containsSub pat rest

/-- The decode loop `for enc in encs: try: return raw.decode(enc)`. -/
def firstDecode (env : Env) (data : List Nat) : List String → Option String
  | [] => none
  | enc :: rest =>
    match env.decode data enc with
    | some s => some s
    | none => firstDecode env data rest

/-- `_read_text_file`: read as UTF-8; on `UnicodeDecodeError` re-read the
bytes and try `utf-8`, `utf-16`, `latin-1` in turn; any other failure or
all decodes failing yields `""`. -/
def readTextFile (env : Env) (path : String) : String :=
  match env.fileBytes path with
  | none => ""
  | some data =>
    match env.decode data "utf-8" with
    | some s => s
    | none => (firstDecode env data ["utf-8", "utf-16", "latin-1"]).getD ""

/-- `_parse_pdf`: `pymupdf4llm.to_markdown(path)` with every failure
(unreadable file or parser error) mapped to `""`. -/
def parsePdf (env : Env) (path : String) : String :=
  match env.fileBytes path with
  | none => ""
  | some data => (env.pdfToMarkdown data).getD ""

/-- The encoding list of the HTTP text branch:
`filter(None, [charset, "utf-8", "latin-1"])`, where `charset` is parsed
from the `Content-Type` header when it contains `charset=` as
`content_type.split("charset=")[-1].split(";")[0].strip()`. -/
def httpTextEncodings (contentType : String) : List String :=
  let charset : String :=
    if containsSub ("charset=".data) contentType.data then
      String.mk (pyStrip
        ((afterLastSub ("charset=".data) contentType.data).takeWhile
          (fun c => !(c == ';'))))
    else ""
  (if charset = "" then [] else [charset]) ++ ["utf-8", "latin-1"]

/-- `resolve_file_content(file_uri)`.  The argument is `none` for Python
`None`; the empty string is the other falsy value caught by
`if not file_uri`.  The `urlparse` call at `qa.py:52` sits outside every
`try`, so its `ValueError` on a malformed URL propagates: that is the
`.error` case.  Every branch after a successful parse returns a string
(`.ok`).  The HTTP PDF branch (download to a temporary file, parse,
delete) is modelled by parsing the response body directly, since
`_parse_pdf` sees a file holding exactly those bytes. -/
def resolveFileContent (env : Env) (fileUri : Option String) : Except String String :=
  match fileUri with
  | none => .ok ""
  | some u =>
    if u = "" then .ok ""
    else
      match urlparseE env u with
      | .error e => .error e
      | .ok (schemeRaw, path) =>
        let scheme := lowerStr schemeRaw
        if scheme = "file" then
          let localPath := env.url2pathname path
          .ok (if lowerStr (pathSuffix localPath) = ".pdf" then parsePdf env localPath
            else readTextFile env localPath)
        else if scheme = "http" ∨ scheme = "https" then
          let ext := lowerStr (pathSuffix path)
          let wantPdf := ext = ".pdf"
          let wantText := ext = ".txt" ∨ ext = ".md" ∨ ext = ".markdown"
          match env.urlopen u with
          | none => .ok ""
          | some resp =>
            let ct := lowerStr resp.contentType
            .ok (if wantPdf ∨ (¬(wantPdf ∨ wantText) ∧
                  (containsSub "application/pdf".data ct.data)) then
                (env.pdfToMarkdown resp.body).getD ""
              else if wantText ∨ (¬(wantPdf ∨ wantText) ∧
                  ¬(containsSub "application/pdf".data ct.data) ∧
                  ("text/".data.isPrefixOf ct.data ∨
                    containsSub "markdown".data ct.data)) then
                (firstDecode env resp.body (httpTextEncodings ct)).getD ""
              else "")
        else
          let p := env.expanduser u
          .ok (if lowerStr (pathSuffix p) = ".pdf" then parsePdf env p
            else readTextFile env p)

/-- A Python dictionary value as `_get_payload_text` inspects it: a `str`,
a `bytes` value — carrying the outcome of `val.decode()`: the decoded text,
or `none` when the bytes are not valid UTF-8 and decoding raises
`UnicodeDecodeError` — or a value of any other type, which the
`isinstance` check skips. -/
inductive PyVal where
  | pstr (s : String)
  | pbytes (decoded : Option String)
  | other
deriving DecidableEq

/-- A request payload or args mapping, restricted to the keys the script
reads: `question`, `file`, and the five text keys probed by
`_get_payload_text`. -/
structure DocPayload where
  question : Option String := none
  file : Option String := none
  input : Option PyVal := none
  stdin : Option PyVal := none
  content : Option PyVal := none
  data : Option PyVal := none
  text : Option PyVal := none
deriving DecidableEq

/-- What `_get_payload_text` does with one value: `none` when the key is
absent or the value has a skipped type, otherwise the returned text or the
`UnicodeDecodeError` that `val.decode()` raises (uncaught, `qa.py:146`). -/
def pyTextOf : Option PyVal → Option (Except String String)
  | some (.pstr s) => some (.ok s)
  | some (.pbytes (some s)) => some (.ok s)
  | some (.pbytes none) => some (.error "UnicodeDecodeError")
  | _ => none

/-- `_get_payload_text`: return on the first `str`/`bytes` value among the
keys `input`, `stdin`, `content`, `data`, `text` (decoding a `bytes` value
can raise), else `""`. -/
def getPayloadText (p : DocPayload) : Except String String :=
  match pyTextOf p.input with
  | some r => r
  | none =>
    match pyTextOf p.stdin with
    | some r => r
    | none =>
      match pyTextOf p.content with
      | some r => r
      | none =>
        match pyTextOf p.data with
        | some r => r
        | none => (pyTextOf p.text).getD (.ok "")

/-- Python `a or b` for optional strings (`None` and `""` are falsy). -/
def pyOr (a b : Option String) : Option String :=
  match a with
  | some s => if s = "" then b else some s
  | none => b

/-- Python falsiness of an optional string. -/
def strFalsy : Option String → Bool
  | none => true
  | some s => s == ""

/-- `_build_prompt(question, document_text)`. -/
def buildPrompt (question documentText : String) : String :=
  let normalized := lowerStr (String.mk (pyStrip question.data))
  let instruction :=
    if normalized = "summarize" ∨ normalized = "summary" ∨ normalized = "tl;dr" then
      "Provide a concise, accurate summary of the following document. Capture the main points, key facts, and any actionable items."
    else
      "Answer the question based on the document. "
  instruction ++ "\n\n" ++ "Document:\n```text\n" ++ documentText ++ "\n```"
    ++ "Question: " ++ question ++ "\n\n"

/-- The result payload of `DocQA.forward` (`{"content": ...}`). -/
inductive DocResult where
  | content (s : String)
deriving DecidableEq

/-- `DocQA.forward`: the envelope paired with the prompts sent to the
model (the single call passes `temperature=0.2`, which the oracle
absorbs), or `.error msg` when an exception escapes `forward`.  Exactly
two calls can raise outside a `try`: `val.decode()` on an undecodable
`bytes` payload value (`qa.py:146`) and `urlparse` inside
`resolve_file_content` (`qa.py:52`, reached through `qa.py:183`). -/
def docqaForward (inputId : String) (payload args : DocPayload) (env : Env)
    (llm : LMOracle) : Except String (AgentOutput DocResult × List String) :=
  let question := pyOr payload.question args.question
  let filePath := pyOr payload.file args.file
  if strFalsy question then
    .ok (⟨inputId, none, some "Missing required argument: -q/--question"⟩, [])
  else
    let q := question.getD ""
    match getPayloadText payload with
    | .error e => .error e
    | .ok payloadText =>
      match (if payloadText = "" then resolveFileContent env filePath
        else .ok payloadText) with
      | .error e => .error e
      | .ok documentText =>
        if documentText = "" then
          .ok (⟨inputId, some (.content "Cannot parse the document content"),
            some "No document provided. Use -f/--file or pipe content via stdin."⟩, [])
        else
          match llm (buildPrompt q documentText) with
          | .ok content =>
            .ok (⟨inputId, some (.content content), none⟩, [buildPrompt q documentText])
          | .error e =>
            .ok (⟨inputId, none, some ("Failed to get response from LLM: " ++ e)⟩,
              [buildPrompt q documentText])

/-! ### Branch-unfolding lemmas for `resolve_file_content` -/

/-- The uncaught `urlparse` raise propagates out of
`resolve_file_content`. -/
theorem resolveFileContent_parse_fail (env : Env) (u e : String) (hu : u ≠ "")
    (hp : urlparseE env u = .error e) :
    resolveFileContent env (some u) = .error e := by
  simp only [resolveFileContent, if_neg hu, hp]

/-- The `http(s)` branch, once the URL parsed and the fetch succeeded. -/
theorem resolveFileContent_http (env : Env) (u sch path : String)
    (resp : HttpResponse) (hu : u ≠ "")
    (hp : urlparseE env u = .ok (sch, path))
    (hs : lowerStr sch = "http" ∨ lowerStr sch = "https")
    (hr : env.urlopen u = some resp) :
    resolveFileContent env (some u) =
      .ok (if lowerStr (pathSuffix path) = ".pdf" ∨
          (¬(lowerStr (pathSuffix path) = ".pdf" ∨
              (lowerStr (pathSuffix path) = ".txt" ∨
                lowerStr (pathSuffix path) = ".md" ∨
                lowerStr (pathSuffix path) = ".markdown")) ∧
            containsSub "application/pdf".data (lowerStr resp.contentType).data) then
        (env.pdfToMarkdown resp.body).getD ""
      else if (lowerStr (pathSuffix path) = ".txt" ∨
            lowerStr (pathSuffix path) = ".md" ∨
            lowerStr (pathSuffix path) = ".markdown") ∨
          (¬(lowerStr (pathSuffix path) = ".pdf" ∨
              (lowerStr (pathSuffix path) = ".txt" ∨
                lowerStr (pathSuffix path) = ".md" ∨
                lowerStr (pathSuffix path) = ".markdown")) ∧
            ¬containsSub "application/pdf".data (lowerStr resp.contentType).data ∧
            ("text/".data.isPrefixOf (lowerStr resp.contentType).data ∨
              containsSub "markdown".data (lowerStr resp.contentType).data)) then
        (firstDecode env resp.body (httpTextEncodings (lowerStr resp.contentType))).getD ""
      else "") := by
  have hnf : ¬lowerStr sch = "file" := by
    rcases hs with h | h <;> rw [h] <;> decide
  simp only [resolveFileContent, if_neg hu, hp, if_neg hnf, if_pos hs, hr]

/-- The `http(s)` branch when the fetch raises. -/
theorem resolveFileContent_http_fail (env : Env) (u sch path : String)
    (hu : u ≠ "") (hp : urlparseE env u = .ok (sch, path))
    (hs : lowerStr sch = "http" ∨ lowerStr sch = "https")
    (hr : env.urlopen u = none) :
    resolveFileContent env (some u) = .ok "" := by
  have hnf : ¬lowerStr sch = "file" := by
    rcases hs with h | h <;> rw [h] <;> decide
  simp only [resolveFileContent, if_neg hu, hp, if_neg hnf, if_pos hs, hr]

/-- The `file://` branch. -/
theorem resolveFileContent_fileuri (env : Env) (u sch path : String)
    (hu : u ≠ "") (hp : urlparseE env u = .ok (sch, path))
    (hs : lowerStr sch = "file") :
    resolveFileContent env (some u) =
      .ok (if lowerStr (pathSuffix (env.url2pathname path)) = ".pdf"
        then parsePdf env (env.url2pathname path)
        else readTextFile env (env.url2pathname path)) := by
  simp only [resolveFileContent, if_neg hu, hp, if_pos hs]

/-- The plain local-path branch. -/
theorem resolveFileContent_local (env : Env) (u sch path : String)
    (hu : u ≠ "") (hp : urlparseE env u = .ok (sch, path))
    (h1 : ¬lowerStr sch = "file")
    (h2 : ¬(lowerStr sch = "http" ∨ lowerStr sch = "https")) :
    resolveFileContent env (some u) =
      .ok (if lowerStr (pathSuffix (env.expanduser u)) = ".pdf"
        then parsePdf env (env.expanduser u)
        else readTextFile env (env.expanduser u)) := by
  simp only [resolveFileContent, if_neg hu, hp, if_neg h1, if_neg h2]

theorem readTextFile_unreadable (env : Env) (p : String)
    (h : env.fileBytes p = none) : readTextFile env p = "" := by
  simp [readTextFile, h]

theorem parsePdf_unreadable (env : Env) (p : String)
    (h : env.fileBytes p = none) : parsePdf env p = "" := by
  simp [parsePdf, h]

theorem firstDecode_none (env : Env) (data : List Nat)
    (h : ∀ enc, env.decode data enc = none) :
    ∀ encs, firstDecode env data encs = none := by
  intro encs
  induction encs with
  | nil => rfl
  | cons e es ih => simp [firstDecode, h e, ih]

theorem readTextFile_undecodable (env : Env) (p : String) (data : List Nat)
    (hb : env.fileBytes p = some data)
    (hd : ∀ enc, env.decode data enc = none) : readTextFile env p = "" := by
  simp [readTextFile, hb, hd "utf-8", firstDecode_none env data hd]

/-! ### Case analyses of the two `forward` operations -/

/-- Every reviewer output envelope is a pure result or a pure error. -/
theorem reviewerForward_cases (inputId : String) (git : GitOutcome) (llm : LMOracle) :
    (∃ r, (reviewerForward inputId git llm).1 = ⟨inputId, some r, none⟩) ∨
    (∃ e, (reviewerForward inputId git llm).1 = ⟨inputId, none, some e⟩) := by
  cases git with
  | fileNotFound => exact Or.inr ⟨_, rfl⟩
  | calledProcessError stderr => exact Or.inr ⟨_, rfl⟩
  | ok diff =>
    by_cases hd : diff = ""
    · subst hd
      exact Or.inl ⟨.summary "No changes found in the last commit.",
        by simp [reviewerForward]⟩
    · by_cases h1 : (reviewChunks diff).length ≤ 1
      · cases hllm : llm (singlePrompt diff) with
        | ok c =>
          exact Or.inl ⟨.content c, by simp only [reviewerForward, if_neg hd, if_pos h1, hllm]⟩
        | error e =>
          exact Or.inr ⟨"Failed to get review from LLM: " ++ e,
            by simp only [reviewerForward, if_neg hd, if_pos h1, hllm]⟩
      · cases hcs : collectSummaries 1 (chunkResults diff llm) with
        | error x =>
          exact Or.inr ⟨"Failed to get summary for chunk " ++ toString x.1 ++ ": " ++ x.2,
            by simp only [reviewerForward, if_neg hd, if_neg h1, hcs]⟩
        | ok ps =>
          cases hf : llm (consolidationPrompt (reviewChunks diff).length ps) with
          | ok fr =>
            exact Or.inl ⟨.parts ps fr,
              by simp only [reviewerForward, if_neg hd, if_neg h1, hcs, hf]⟩
          | error e =>
            exact Or.inr ⟨"Failed to consolidate summaries: " ++ e,
              by simp only [reviewerForward, if_neg hd, if_neg h1, hcs, hf]⟩

/-- Whenever `DocQA.forward` returns an envelope (rather than raising), it
is a pure result, a pure error, or the no-document envelope, which carries
both. -/
theorem docqaForward_ok_cases (inputId : String) (payload args : DocPayload)
    (env : Env) (llm : LMOracle) (out : AgentOutput DocResult × List String)
    (h : docqaForward inputId payload args env llm = .ok out) :
    (∃ r, out.1 = ⟨inputId, some r, none⟩) ∨
    (∃ e, out.1 = ⟨inputId, none, some e⟩) ∨
    out.1 = ⟨inputId, some (.content "Cannot parse the document content"),
      some "No document provided. Use -f/--file or pipe content via stdin."⟩ := by
  by_cases hq : strFalsy (pyOr payload.question args.question) = true
  · have heq : docqaForward inputId payload args env llm =
        .ok (⟨inputId, none, some "Missing required argument: -q/--question"⟩, []) := by
      simp only [docqaForward, if_pos hq]
    rw [heq] at h
    injection h with h2
    subst h2
    exact Or.inr (Or.inl ⟨_, rfl⟩)
  · cases hpt : getPayloadText payload with
    | error e =>
      have heq : docqaForward inputId payload args env llm = .error e := by
        simp only [docqaForward, if_neg hq, hpt]
      rw [heq] at h
      exact absurd h (by simp)
    | ok pt =>
      cases hdv : (if pt = "" then resolveFileContent env (pyOr payload.file args.file)
          else Except.ok pt) with
      | error e =>
        have heq : docqaForward inputId payload args env llm = .error e := by
          simp only [docqaForward, if_neg hq, hpt, hdv]
        rw [heq] at h
        exact absurd h (by simp)
      | ok doc =>
        by_cases hdd : doc = ""
        · subst hdd
          have heq : docqaForward inputId payload args env llm =
              .ok (⟨inputId, some (.content "Cannot parse the document content"),
                some "No document provided. Use -f/--file or pipe content via stdin."⟩,
                []) := by
            simp [docqaForward, if_neg hq, hpt, hdv]
          rw [heq] at h
          injection h with h2
          subst h2
          exact Or.inr (Or.inr rfl)
        · cases hllm : llm (buildPrompt ((pyOr payload.question args.question).getD "") doc) with
          | ok c =>
            have heq : docqaForward inputId payload args env llm =
                .ok (⟨inputId, some (.content c), none⟩,
                  [buildPrompt ((pyOr payload.question args.question).getD "") doc]) := by
              simp only [docqaForward, if_neg hq, hpt, hdv, if_neg hdd, hllm]
            rw [heq] at h
            injection h with h2
            subst h2
            exact Or.inl ⟨_, rfl⟩
          | error e =>
            have heq : docqaForward inputId payload args env llm =
                .ok (⟨inputId, none, some ("Failed to get response from LLM: " ++ e)⟩,
                  [buildPrompt ((pyOr payload.question args.question).getD "") doc]) := by
              simp only [docqaForward, if_neg hq, hpt, hdv, if_neg hdd, hllm]
            rw [heq] at h
            injection h with h2
            subst h2
            exact Or.inr (Or.inl ⟨_, rfl⟩)

/-- Claim C3 (amended): whenever a `forward` returns an output envelope, it
carries a result payload or an error string; `CodeReviewer.forward` always
returns an envelope and never sets both; `DocQA.forward` sets both in
exactly one case — the no-document path, whose placeholder result
accompanies the error — and on a malformed file URI or an undecodable
`bytes` payload it raises instead of returning an envelope at all. -/
theorem C3_result_or_error_amended :
    (∀ (inputId : String) (git : GitOutcome) (llm : LMOracle),
      ((reviewerForward inputId git llm).1.result.isSome ∧
        (reviewerForward inputId git llm).1.error = none) ∨
      ((reviewerForward inputId git llm).1.result = none ∧
        (reviewerForward inputId git llm).1.error.isSome)) ∧
    (∀ (inputId : String) (payload args : DocPayload) (env : Env) (llm : LMOracle)
        (out : AgentOutput DocResult × List String),
      docqaForward inputId payload args env llm = .ok out →
      ((out.1.result.isSome ∧ out.1.error = none) ∨
        (out.1.result = none ∧ out.1.error.isSome) ∨
        (out.1.result = some (.content "Cannot parse the document content") ∧
          out.1.error =
            some "No document provided. Use -f/--file or pipe content via stdin."))) := by
  constructor
  · intro inputId git llm
    rcases reviewerForward_cases inputId git llm with ⟨r, hr⟩ | ⟨e, he⟩
    · exact Or.inl (by rw [hr]; exact ⟨rfl, rfl⟩)
    · exact Or.inr (by rw [he]; exact ⟨rfl, rfl⟩)
  · intro inputId payload args env llm out h
    rcases docqaForward_ok_cases inputId payload args env llm out h with
      ⟨r, hr⟩ | ⟨e, he⟩ | hboth
    · exact Or.inl (by rw [hr]; exact ⟨rfl, rfl⟩)
    · exact Or.inr (Or.inl (by rw [he]; exact ⟨rfl, rfl⟩))
    · exact Or.inr (Or.inr (by rw [hboth]; exact ⟨rfl, rfl⟩))

/-- An environment in which every fetch, read, decode and parse fails, the
path helpers are the identity, and the standard-library host checks
accept. -/
def emptyEnv : Env where
  fileBytes _ := none
  decode _ _ := none
  pdfToMarkdown _ := none
  urlopen _ := none
  expanduser s := s
  url2pathname s := s
  checkBracketedHost _ := none
  checkNetlocNFKC _ := none

/-- Counterexample to claim C3 as stated: with a question present and no
document available, `DocQA.forward` returns an envelope carrying both a
result payload (`Cannot parse the document content`) and an error
string. -/
theorem C3_result_or_error_counterexample :
    docqaForward "in0" { question := some "q" } {} emptyEnv okLLM =
      .ok (⟨"in0", some (.content "Cannot parse the document content"),
        some "No document provided. Use -f/--file or pipe content via stdin."⟩, []) := by
  rfl

/-- Concrete instantiation of the amended C3: a request with a question and
a piped document returns a pure-result envelope. -/
theorem C3_result_or_error_amended_witness :
    docqaForward "w6" { question := some "q", content := some (.pstr "doc") } {}
        emptyEnv okLLM =
      .ok (⟨"w6", some (.content "fine"), none⟩, [buildPrompt "q" "doc"]) ∧
    ((⟨"w6", some (.content "fine"), none⟩ : AgentOutput DocResult).result.isSome ∧
      (⟨"w6", some (.content "fine"), none⟩ : AgentOutput DocResult).error = none) := by
  have h : docqaForward "w6" { question := some "q", content := some (.pstr "doc") } {}
      emptyEnv okLLM =
      .ok (⟨"w6", some (.content "fine"), none⟩, [buildPrompt "q" "doc"]) := rfl
  have hc := C3_result_or_error_amended.2 "w6"
    { question := some "q", content := some (.pstr "doc") } {} emptyEnv okLLM _ h
  refine ⟨h, ?_⟩
  rcases hc with hc | hc | hc
  · exact hc
  · exact absurd hc.1 (by decide)
  · exact absurd hc.2 (by decide)

set_option maxHeartbeats 1000000 in
/-- Claim C6 (amended): for every source that `urlparse` accepts (a
malformed URL raises `ValueError` before any branch), content type is
resolved by file extension first and, for `http(s)` sources with an
inconclusive extension, by the `Content-Type` header; the only two content
branches are plain/markdown text and PDF extraction.  An `http(s)` source
whose type resolves to neither yields empty content; for `file://` URIs
and plain local paths the `.pdf` extension selects PDF extraction and
every other extension selects the text branch (there is no header step and
no empty-by-type case for local sources). -/
theorem C6_content_type_resolution_amended (env : Env) (u sch path : String)
    (hu : u ≠ "") (hparse : urlparseE env u = .ok (sch, path)) :
    ((lowerStr sch = "http" ∨ lowerStr sch = "https") →
      (env.urlopen u = none → resolveFileContent env (some u) = .ok "") ∧
      (∀ resp, env.urlopen u = some resp →
        (lowerStr (pathSuffix path) = ".pdf" →
          resolveFileContent env (some u) =
            .ok ((env.pdfToMarkdown resp.body).getD "")) ∧
        ((lowerStr (pathSuffix path) = ".txt" ∨
            lowerStr (pathSuffix path) = ".md" ∨
            lowerStr (pathSuffix path) = ".markdown") →
          resolveFileContent env (some u) =
            .ok ((firstDecode env resp.body
              (httpTextEncodings (lowerStr resp.contentType))).getD "")) ∧
        (lowerStr (pathSuffix path) ≠ ".pdf" →
          lowerStr (pathSuffix path) ≠ ".txt" →
          lowerStr (pathSuffix path) ≠ ".md" →
          lowerStr (pathSuffix path) ≠ ".markdown" →
          (containsSub "application/pdf".data (lowerStr resp.contentType).data →
            resolveFileContent env (some u) =
              .ok ((env.pdfToMarkdown resp.body).getD "")) ∧
          (¬containsSub "application/pdf".data (lowerStr resp.contentType).data →
            ("text/".data.isPrefixOf (lowerStr resp.contentType).data ∨
              containsSub "markdown".data (lowerStr resp.contentType).data) →
            resolveFileContent env (some u) =
              .ok ((firstDecode env resp.body
                (httpTextEncodings (lowerStr resp.contentType))).getD "")) ∧
          (¬containsSub "application/pdf".data (lowerStr resp.contentType).data →
            ¬("text/".data.isPrefixOf (lowerStr resp.contentType).data ∨
              containsSub "markdown".data (lowerStr resp.contentType).data) →
            resolveFileContent env (some u) = .ok "")))) ∧
    (lowerStr sch = "file" →
      (lowerStr (pathSuffix (env.url2pathname path)) = ".pdf" →
        resolveFileContent env (some u) =
          .ok (parsePdf env (env.url2pathname path))) ∧
      (lowerStr (pathSuffix (env.url2pathname path)) ≠ ".pdf" →
        resolveFileContent env (some u) =
          .ok (readTextFile env (env.url2pathname path)))) ∧
    (¬lowerStr sch = "file" →
      ¬(lowerStr sch = "http" ∨ lowerStr sch = "https") →
      (lowerStr (pathSuffix (env.expanduser u)) = ".pdf" →
        resolveFileContent env (some u) = .ok (parsePdf env (env.expanduser u))) ∧
      (lowerStr (pathSuffix (env.expanduser u)) ≠ ".pdf" →
        resolveFileContent env (some u) =
          .ok (readTextFile env (env.expanduser u)))) := by
  refine ⟨?_, ?_, ?_⟩
  · intro hs
    refine ⟨fun hnone => resolveFileContent_http_fail env u sch path hu hparse hs hnone, ?_⟩
    intro resp hr
    have hbase := resolveFileContent_http env u sch path resp hu hparse hs hr
    refine ⟨?_, ?_, ?_⟩
    · intro hpdf
      rw [hbase, if_pos (Or.inl hpdf)]
    · intro htxt
      have hnp : lowerStr (pathSuffix path) ≠ ".pdf" := by
        rcases htxt with h | h | h <;> rw [h] <;> decide
      have hc1 : ¬(lowerStr (pathSuffix path) = ".pdf" ∨
          (¬(lowerStr (pathSuffix path) = ".pdf" ∨
              (lowerStr (pathSuffix path) = ".txt" ∨
                lowerStr (pathSuffix path) = ".md" ∨
                lowerStr (pathSuffix path) = ".markdown")) ∧
            containsSub "application/pdf".data (lowerStr resp.contentType).data)) := by
        rintro (h | ⟨hn, _⟩)
        · exact hnp h
        · exact hn (Or.inr htxt)
      rw [hbase, if_neg hc1, if_pos (Or.inl htxt)]
    · intro h1 h2 h3 h4
      have hnone : ¬(lowerStr (pathSuffix path) = ".pdf" ∨
          (lowerStr (pathSuffix path) = ".txt" ∨
            lowerStr (pathSuffix path) = ".md" ∨
            lowerStr (pathSuffix path) = ".markdown")) := by
        rintro (h | h | h | h)
        exacts [h1 h, h2 h, h3 h, h4 h]
      refine ⟨?_, ?_, ?_⟩
      · intro hct
        rw [hbase, if_pos (Or.inr ⟨hnone, hct⟩)]
      · intro hct htext
        have hc1 : ¬(lowerStr (pathSuffix path) = ".pdf" ∨
            (¬(lowerStr (pathSuffix path) = ".pdf" ∨
                (lowerStr (pathSuffix path) = ".txt" ∨
                  lowerStr (pathSuffix path) = ".md" ∨
                  lowerStr (pathSuffix path) = ".markdown")) ∧
              containsSub "application/pdf".data (lowerStr resp.contentType).data)) := by
          rintro (h | ⟨_, hctp⟩)
          · exact h1 h
          · exact hct hctp
        rw [hbase, if_neg hc1, if_pos (Or.inr ⟨hnone, hct, htext⟩)]
      · intro hct htext
        have hc1 : ¬(lowerStr (pathSuffix path) = ".pdf" ∨
            (¬(lowerStr (pathSuffix path) = ".pdf" ∨
                (lowerStr (pathSuffix path) = ".txt" ∨
                  lowerStr (pathSuffix path) = ".md" ∨
                  lowerStr (pathSuffix path) = ".markdown")) ∧
              containsSub "application/pdf".data (lowerStr resp.contentType).data)) := by
          rintro (h | ⟨_, hctp⟩)
          · exact h1 h
          · exact hct hctp
        have hc2 : ¬((lowerStr (pathSuffix path) = ".txt" ∨
              lowerStr (pathSuffix path) = ".md" ∨
              lowerStr (pathSuffix path) = ".markdown") ∨
            (¬(lowerStr (pathSuffix path) = ".pdf" ∨
                (lowerStr (pathSuffix path) = ".txt" ∨
                  lowerStr (pathSuffix path) = ".md" ∨
                  lowerStr (pathSuffix path) = ".markdown")) ∧
              ¬containsSub "application/pdf".data (lowerStr resp.contentType).data ∧
              ("text/".data.isPrefixOf (lowerStr resp.contentType).data ∨
                containsSub "markdown".data (lowerStr resp.contentType).data))) := by
          rintro (h | ⟨_, _, htext2⟩)
          · rcases h with h | h | h
            exacts [h2 h, h3 h, h4 h]
          · exact htext htext2
        rw [hbase, if_neg hc1, if_neg hc2]
  · intro hs
    have hbase := resolveFileContent_fileuri env u sch path hu hparse hs
    exact ⟨fun hp => by rw [hbase, if_pos hp], fun hp => by rw [hbase, if_neg hp]⟩
  · intro h1 h2
    have hbase := resolveFileContent_local env u sch path hu hparse h1 h2
    exact ⟨fun hp => by rw [hbase, if_pos hp], fun hp => by rw [hbase, if_neg hp]⟩

/-- An environment with a single readable local file `doc.bin` whose bytes
decode as UTF-8 to `"hello"`. -/
def binEnv : Env where
  fileBytes p := if p = "doc.bin" then some [104, 101, 108, 108, 111] else none
  decode data enc :=
    if data = [104, 101, 108, 108, 111] ∧ enc = "utf-8" then some "hello" else none
  pdfToMarkdown _ := none
  urlopen _ := none
  expanduser s := s
  url2pathname s := s
  checkBracketedHost _ := none
  checkNetlocNFKC _ := none

/-- Counterexample to claim C6 as stated: the local source `doc.bin` has an
extension that selects neither branch under the claim's resolution rule,
and no HTTP header exists for it, yet its content resolves to nonempty
text — the code reads every non-`.pdf` local file as text instead of
yielding empty content for an unresolved type. -/
theorem C6_content_type_resolution_counterexample :
    pathSuffix "doc.bin" = ".bin" ∧
    resolveFileContent binEnv (some "doc.bin") = .ok "hello" := by
  exact ⟨by decide, by decide⟩

/-- A response whose `Content-Type` selects neither branch. -/
def octetResp : HttpResponse := ⟨"application/octet-stream", [1, 2, 3]⟩

/-- An environment serving `http://h/a.bin` as an octet stream. -/
def httpEnv : Env where
  fileBytes _ := none
  decode _ _ := none
  pdfToMarkdown _ := none
  urlopen u := if u = "http://h/a.bin" then some octetResp else none
  expanduser s := s
  url2pathname s := s
  checkBracketedHost _ := none
  checkNetlocNFKC _ := none

/-- Concrete instantiation of the amended C6: an `http` source with an
inconclusive extension and a `Content-Type` that is neither PDF nor text
yields empty content. -/
theorem C6_content_type_resolution_amended_witness :
    ("http://h/a.bin" : String) ≠ "" ∧
    urlparseE httpEnv "http://h/a.bin" = .ok ("http", "/a.bin") ∧
    httpEnv.urlopen "http://h/a.bin" = some octetResp ∧
    resolveFileContent httpEnv (some "http://h/a.bin") = .ok "" := by
  have h := C6_content_type_resolution_amended httpEnv "http://h/a.bin" "http" "/a.bin"
    (by decide) (by decide)
  refine ⟨by decide, by decide, by decide, ?_⟩
  have h2 := (h.1 (Or.inl (by decide))).2 octetResp (by decide)
  have h3 := h2.2.2 (by decide) (by decide) (by decide) (by decide)
  exact h3.2.2 (by decide) (by decide)

/-- Counterexample to claim C7 as stated: the malformed URL `http://[oops`
is an unsupported document source, yet `resolve_file_content` does not
return the empty string for it — the uncaught `urlparse` call raises
`ValueError("Invalid IPv6 URL")`. -/
theorem C7_unsupported_source_empty_error_counterexample :
    resolveFileContent emptyEnv (some "http://[oops") = .error "Invalid IPv6 URL" := by
  decide

/-- Claim C7 (amended): every unsupported or unreachable document source
that `urlparse` accepts — an `http(s)` source whose type resolves to
neither branch, a failed fetch, an unreadable local file, an undecodable
local file — makes `resolve_file_content` return the empty string, and
`DocQA.forward` then takes the defined empty-content path: it returns the
no-document error and never calls the model (the issued-prompt list is
empty).  A malformed source such as `http://[oops` instead raises
`ValueError` from the uncaught `urlparse` call before any branch. -/
theorem C7_unsupported_source_empty_error_amended :
    (∀ (env : Env) (u sch path : String), u ≠ "" →
      urlparseE env u = .ok (sch, path) →
      (lowerStr sch = "http" ∨ lowerStr sch = "https") →
      env.urlopen u = none → resolveFileContent env (some u) = .ok "") ∧
    (∀ (env : Env) (u sch path : String) (resp : HttpResponse), u ≠ "" →
      urlparseE env u = .ok (sch, path) →
      (lowerStr sch = "http" ∨ lowerStr sch = "https") →
      env.urlopen u = some resp →
      lowerStr (pathSuffix path) ≠ ".pdf" →
      lowerStr (pathSuffix path) ≠ ".txt" →
      lowerStr (pathSuffix path) ≠ ".md" →
      lowerStr (pathSuffix path) ≠ ".markdown" →
      ¬containsSub "application/pdf".data (lowerStr resp.contentType).data →
      ¬("text/".data.isPrefixOf (lowerStr resp.contentType).data ∨
          containsSub "markdown".data (lowerStr resp.contentType).data) →
      resolveFileContent env (some u) = .ok "") ∧
    (∀ (env : Env) (u sch path : String), u ≠ "" →
      urlparseE env u = .ok (sch, path) →
      ¬lowerStr sch = "file" →
      ¬(lowerStr sch = "http" ∨ lowerStr sch = "https") →
      env.fileBytes (env.expanduser u) = none →
      resolveFileContent env (some u) = .ok "") ∧
    (∀ (env : Env) (u sch path : String) (data : List Nat), u ≠ "" →
      urlparseE env u = .ok (sch, path) →
      ¬lowerStr sch = "file" →
      ¬(lowerStr sch = "http" ∨ lowerStr sch = "https") →
      lowerStr (pathSuffix (env.expanduser u)) ≠ ".pdf" →
      env.fileBytes (env.expanduser u) = some data →
      (∀ enc, env.decode data enc = none) →
      resolveFileContent env (some u) = .ok "") ∧
    (∀ (inputId : String) (payload args : DocPayload) (env : Env)
        (llm : LMOracle) (q : String),
      pyOr payload.question args.question = some q → q ≠ "" →
      getPayloadText payload = .ok "" →
      resolveFileContent env (pyOr payload.file args.file) = .ok "" →
      docqaForward inputId payload args env llm =
        .ok (⟨inputId, some (.content "Cannot parse the document content"),
          some "No document provided. Use -f/--file or pipe content via stdin."⟩, [])) := by
  refine ⟨?_, ?_, ?_, ?_, ?_⟩
  · intro env u sch path hu hp hs hr
    exact resolveFileContent_http_fail env u sch path hu hp hs hr
  · intro env u sch path resp hu hp hs hr h1 h2 h3 h4 hct htext
    have hc1 : ¬(lowerStr (pathSuffix path) = ".pdf" ∨
        (¬(lowerStr (pathSuffix path) = ".pdf" ∨
            (lowerStr (pathSuffix path) = ".txt" ∨
              lowerStr (pathSuffix path) = ".md" ∨
              lowerStr (pathSuffix path) = ".markdown")) ∧
          containsSub "application/pdf".data (lowerStr resp.contentType).data)) := by
      rintro (h | ⟨_, hctp⟩)
      · exact h1 h
      · exact hct hctp
    have hc2 : ¬((lowerStr (pathSuffix path) = ".txt" ∨
          lowerStr (pathSuffix path) = ".md" ∨
          lowerStr (pathSuffix path) = ".markdown") ∨
        (¬(lowerStr (pathSuffix path) = ".pdf" ∨
            (lowerStr (pathSuffix path) = ".txt" ∨
              lowerStr (pathSuffix path) = ".md" ∨
              lowerStr (pathSuffix path) = ".markdown")) ∧
          ¬containsSub "application/pdf".data (lowerStr resp.contentType).data ∧
          ("text/".data.isPrefixOf (lowerStr resp.contentType).data ∨
            containsSub "markdown".data (lowerStr resp.contentType).data))) := by
      rintro (h | ⟨_, _, htext2⟩)
      · rcases h with h | h | h
        exacts [h2 h, h3 h, h4 h]
      · exact htext htext2
    rw [resolveFileContent_http env u sch path resp hu hp hs hr, if_neg hc1, if_neg hc2]
  · intro env u sch path hu hp h1 h2 hb
    rw [resolveFileContent_local env u sch path hu hp h1 h2]
    by_cases hpdf : lowerStr (pathSuffix (env.expanduser u)) = ".pdf"
    · rw [if_pos hpdf, parsePdf_unreadable env _ hb]
    · rw [if_neg hpdf, readTextFile_unreadable env _ hb]
  · intro env u sch path data hu hp h1 h2 hpdf hb hd
    rw [resolveFileContent_local env u sch path hu hp h1 h2, if_neg hpdf,
      readTextFile_undecodable env _ data hb hd]
  · intro inputId payload args env llm q hq hq' hpt hres
    have hfq : strFalsy (some q) = false := by
      rw [strFalsy]
      simp [hq']
    simp [docqaForward, hq, hfq, hpt, hres]

/-- Concrete instantiation of the amended C7: a question is present, the
payload holds no text, no file is given, so resolution is empty and the
no-document error comes back with no model call. -/
theorem C7_unsupported_source_empty_error_amended_witness :
    pyOr (DocPayload.question { question := some "q" }) (DocPayload.question {}) = some "q" ∧
    getPayloadText { question := some "q" } = .ok "" ∧
    resolveFileContent emptyEnv
      (pyOr (DocPayload.file { question := some "q" }) (DocPayload.file {})) = .ok "" ∧
    docqaForward "w0" { question := some "q" } {} emptyEnv okLLM =
      .ok (⟨"w0", some (.content "Cannot parse the document content"),
        some "No document provided. Use -f/--file or pipe content via stdin."⟩, []) := by
  refine ⟨rfl, rfl, rfl, ?_⟩
  exact C7_unsupported_source_empty_error_amended.2.2.2.2 "w0" { question := some "q" } {}
    emptyEnv okLLM "q" rfl (by decide) rfl rfl

/-- Counterexample to claim C8 as stated: `DocQA.forward` does let
exceptions propagate — the uncaught `urlparse` `ValueError` on a malformed
`-f` URI (`qa.py:52`, reached through `qa.py:183`) and the uncaught
`UnicodeDecodeError` from `val.decode()` on an undecodable `bytes` payload
value (`qa.py:146`). -/
theorem C8_failures_as_error_strings_counterexample :
    docqaForward "cx8" { question := some "q", file := some "http://[oops" } {}
        emptyEnv okLLM = .error "Invalid IPv6 URL" ∧
    docqaForward "cx8b" { question := some "q", input := some (.pbytes none) } {}
        emptyEnv okLLM = .error "UnicodeDecodeError" := by
  exact ⟨by decide, by decide⟩

/-- Claim C8 (amended): every failure the scripts anticipate — git missing,
git command failure, a model-call failure in any path, a missing question,
a missing document (including an unreadable file, which resolves to the
empty document) — is caught inside `forward` and returned as a descriptive
error string in the output envelope.  `CodeReviewer.forward` is total, but
`DocQA.forward` is not: it propagates the `ValueError` that `urlparse`
raises on a malformed file URI and the `UnicodeDecodeError` that
`val.decode()` raises on an undecodable `bytes` payload value, as the last
two conjuncts state.  The chunk-failure error path is claim C2's theorem
and the no-document path is claim C7's. -/
theorem C8_failures_as_error_strings_amended :
    (∀ (inputId : String) (llm : LMOracle),
      reviewerForward inputId .fileNotFound llm =
        (⟨inputId, none, some "Git is not installed or not in the system's PATH."⟩, [])) ∧
    (∀ (inputId stderr : String) (llm : LMOracle),
      reviewerForward inputId (.calledProcessError stderr) llm =
        (⟨inputId, none, some ("Git command failed: " ++ stderr)⟩, [])) ∧
    (∀ (inputId diff : String) (llm : LMOracle) (e : String), diff ≠ "" →
      (reviewChunks diff).length ≤ 1 →
      llm (singlePrompt diff) = .error e →
      (reviewerForward inputId (.ok diff) llm).1 =
        ⟨inputId, none, some ("Failed to get review from LLM: " ++ e)⟩) ∧
    (∀ (inputId diff : String) (llm : LMOracle) (ps : List ChunkSummary)
        (e : String), diff ≠ "" →
      ¬(reviewChunks diff).length ≤ 1 →
      collectSummaries 1 (chunkResults diff llm) = .ok ps →
      llm (consolidationPrompt (reviewChunks diff).length ps) = .error e →
      (reviewerForward inputId (.ok diff) llm).1 =
        ⟨inputId, none, some ("Failed to consolidate summaries: " ++ e)⟩) ∧
    (∀ (inputId : String) (payload args : DocPayload) (env : Env) (llm : LMOracle),
      strFalsy (pyOr payload.question args.question) = true →
      docqaForward inputId payload args env llm =
        .ok (⟨inputId, none, some "Missing required argument: -q/--question"⟩, [])) ∧
    (∀ (inputId : String) (payload args : DocPayload) (env : Env)
        (llm : LMOracle) (q pt doc e : String),
      pyOr payload.question args.question = some q → q ≠ "" →
      getPayloadText payload = .ok pt →
      (if pt = "" then resolveFileContent env (pyOr payload.file args.file)
        else Except.ok pt) = .ok doc →
      doc ≠ "" →
      llm (buildPrompt q doc) = .error e →
      docqaForward inputId payload args env llm =
        .ok (⟨inputId, none, some ("Failed to get response from LLM: " ++ e)⟩,
          [buildPrompt q doc])) ∧
    (∀ (inputId : String) (payload args : DocPayload) (env : Env)
        (llm : LMOracle) (e : String),
      ¬strFalsy (pyOr payload.question args.question) = true →
      getPayloadText payload = .error e →
      docqaForward inputId payload args env llm = .error e) ∧
    (∀ (inputId : String) (payload args : DocPayload) (env : Env)
        (llm : LMOracle) (e : String),
      ¬strFalsy (pyOr payload.question args.question) = true →
      getPayloadText payload = .ok "" →
      resolveFileContent env (pyOr payload.file args.file) = .error e →
      docqaForward inputId payload args env llm = .error e) := by
  refine ⟨fun _ _ => rfl, fun _ _ _ => rfl, ?_, ?_, ?_, ?_, ?_, ?_⟩
  · intro inputId diff llm e hd h1 hllm
    simp only [reviewerForward, if_neg hd, if_pos h1, hllm]
  · intro inputId diff llm ps e hd h1 hcs hf
    simp only [reviewerForward, if_neg hd, if_neg h1, hcs, hf]
  · intro inputId payload args env llm hq
    simp only [docqaForward, if_pos hq]
  · intro inputId payload args env llm q pt doc e hq hq' hpt hdoc hdd hllm
    have hfq : strFalsy (some q) = false := by
      rw [strFalsy]
      simp [hq']
    simp only [docqaForward, hq, hfq, Bool.false_eq_true, if_false, Option.getD_some,
      hpt, hdoc, if_neg hdd, hllm]
  · intro inputId payload args env llm e hq hpt
    simp only [docqaForward, if_neg hq, hpt]
  · intro inputId payload args env llm e hq hpt hres
    simp [docqaForward, hq, hpt, hres]

/-- Concrete instantiations of the amended C8's caught-failure cases and
of the resolve-raise propagation. -/
theorem C8_failures_as_error_strings_amended_witness :
    reviewerForward "w1" .fileNotFound okLLM =
      (⟨"w1", none, some "Git is not installed or not in the system's PATH."⟩, []) ∧
    reviewerForward "w2" (.calledProcessError "fatal") okLLM =
      (⟨"w2", none, some ("Git command failed: " ++ "fatal")⟩, []) ∧
    (reviewerForward "w3" (.ok "a b") failLLM).1 =
      ⟨"w3", none, some ("Failed to get review from LLM: " ++ "boom")⟩ ∧
    docqaForward "w4" {} {} emptyEnv okLLM =
      .ok (⟨"w4", none, some "Missing required argument: -q/--question"⟩, []) ∧
    docqaForward "w5" { question := some "q", content := some (.pstr "doc") } {}
        emptyEnv failLLM =
      .ok (⟨"w5", none, some ("Failed to get response from LLM: " ++ "boom")⟩,
        [buildPrompt "q" "doc"]) ∧
    docqaForward "w7" { question := some "q", file := some "http://[zz" } {}
        emptyEnv okLLM = .error "Invalid IPv6 URL" := by
  have h := C8_failures_as_error_strings_amended
  refine ⟨h.1 "w1" okLLM, h.2.1 "w2" "fatal" okLLM, ?_, ?_, ?_, ?_⟩
  · exact h.2.2.1 "w3" "a b" failLLM "boom" (by decide)
      (le_of_eq reviewChunks_ab_len) rfl
  · exact h.2.2.2.2.1 "w4" {} {} emptyEnv okLLM rfl
  · exact h.2.2.2.2.2.1 "w5" { question := some "q", content := some (.pstr "doc") } {}
      emptyEnv failLLM "q" "doc" "doc" "boom" rfl (by decide) rfl (by decide) (by decide) rfl
  · exact h.2.2.2.2.2.2.2 "w7" { question := some "q", file := some "http://[zz" } {}
      emptyEnv okLLM "Invalid IPv6 URL" (by decide) rfl (by decide)

/-- Claim C10's failing input evaluated: `resolve_file_content` on the
malformed URI `http://[oops` propagates `ValueError("Invalid IPv6 URL")`
from the uncaught `urlparse` call at `qa.py:52` instead of returning a
string — contradicting its own docstring, which promises the extracted
text or an empty string on failure.  The `.error` value is this
embedding's rendering of the raised exception. -/
theorem C10_resolve_raises_on_malformed_uri :
    resolveFileContent emptyEnv (some "http://[oops") = .error "Invalid IPv6 URL" := by
  decide

end VAgents
